import Mathlib

/-!
Verification of the mexMemory reference-counting core
(`src/include/memory/refCounting/`): the `ControlBlock` counting state
machine, the strong handle `Ref`, and the weak handle `WeakRef`.

The embedding is shallow: the control block's mutable state becomes the
structure `ControlBlock`; its member functions become Lean functions from
states to states; `delete this` is modelled by returning `none`; the
side effects that the spec talks about (ledger untrack, payload
destruction, control-block destruction) are emitted as an event list.
`size_t` counters are `Nat` with explicit wrap-around modulo `2 ^ 64`,
matching `std::atomic<size_t>::fetch_add/fetch_sub` semantics.
-/

namespace MexMemory

/-- Modulus of the `size_t` counters (64-bit, as `std::atomic<size_t>`). -/
def size_t_mod : Nat := 2 ^ 64

/-- Atomic `fetch_add(1)` result stored back into a `size_t` counter
(the stored value; the previous value is the argument itself). -/
def fetchAdd1 (c : Nat) : Nat := (c + 1) % size_t_mod

/-- Atomic `fetch_sub(1)` result stored back into a `size_t` counter
(the stored value; unsigned wrap-around on 0). -/
def fetchSub1 (c : Nat) : Nat := (c + (size_t_mod - 1)) % size_t_mod

/-- Which destruction path runs for the payload:
`allocatorDeallocate` is `Allocator::deallocate(objectPtr)` on the block's
static type `T`; `operatorDelete` is the raw `operator delete(objectPtr)`
branch of `deallocateObject`. -/
inductive DestroyPath where
  | allocatorDeallocate
  | operatorDelete
deriving DecidableEq, Repr

/-- Observable side effects of control-block operations:
`untrack` is the ledger call `UNTRACK_ALLOC(objectPtr)`, `destroyPayload`
is the destruction of the managed object, `deleteCB` is `delete this`. -/
inductive Event where
  | untrack
  | destroyPayload (path : DestroyPath)
  | deleteCB
deriving DecidableEq, Repr

/-- State of one `ControlBlock<T, Allocator>` instance.
`objectPtr` records whether the payload pointer is non-null;
`typeInfo` is the stored `std::type_info const*` (`none` models the
raw-pointer constructor leaving the member uninitialized);
`staticT` models the type identity of the template parameter `T`
(`typeid(T)`); `strongRefs` and `weakRefs` are the two `size_t`
counters. -/
structure ControlBlock where
  objectPtr : Bool
  typeInfo : Option Nat
  staticT : Nat
  strongRefs : Nat
  weakRefs : Nat
deriving DecidableEq, Repr

namespace ControlBlock

/-- The argument-forwarding constructor `ControlBlock(Args&&...)` used by
`makeRef`: allocates the payload, sets `typeInfo = &typeid(T)`, and the
counter members start at `strongRefs = 1`, `weakRefs = 0`. -/
def construct (t : Nat) : ControlBlock :=
  { objectPtr := true, typeInfo := some t, staticT := t,
    strongRefs := 1, weakRefs := 0 }

/-- The raw-pointer constructor `ControlBlock(T* ptr)`: only `objectPtr`
is set by the member-init list; `typeInfo` is left uninitialized
(modelled as `none`); counters start at `1` and `0` from their member
default values. `nonNull` records whether `ptr` was non-null. -/
def constructRaw (t : Nat) (nonNull : Bool) : ControlBlock :=
  { objectPtr := nonNull, typeInfo := none, staticT := t,
    strongRefs := 1, weakRefs := 0 }

/-- `strongCount()`: relaxed load of `strongRefs`. -/
def strongCount (s : ControlBlock) : Nat := s.strongRefs

/-- `weakCount()`: relaxed load of `weakRefs`. -/
def weakCount (s : ControlBlock) : Nat := s.weakRefs

/-- `hadObject()`: whether `objectPtr != nullptr`. -/
def hadObject (s : ControlBlock) : Bool := s.objectPtr

/-- The destructor `~ControlBlock()`: if `objectPtr` is non-null it
untracks the allocation (only when `strongRefs > 0`) and deallocates the
payload through `Allocator::deallocate`. Returns the emitted events. -/
def cbDestructor (s : ControlBlock) : List Event :=
  if s.objectPtr then
    (if 0 < s.strongRefs then [Event.untrack] else [])
      ++ [Event.destroyPayload DestroyPath.allocatorDeallocate]
  else []

/-- `incrementStrong()`: `strongRefs.fetch_add(1, relaxed)`. -/
def incrementStrong (s : ControlBlock) : ControlBlock :=
  { s with strongRefs := fetchAdd1 s.strongRefs }

/-- `incrementWeak()`: `weakRefs.fetch_add(1, relaxed)`. -/
def incrementWeak (s : ControlBlock) : ControlBlock :=
  { s with weakRefs := fetchAdd1 s.weakRefs }

/-- `decrementStrong()`: `prev = strongRefs.fetch_sub(1)`; if `prev == 1`
then (if the payload is live: `UNTRACK_ALLOC`, `Allocator::deallocate`),
null the payload, and if `weakRefs == 0` run `delete this` (destructor
then control-block destruction). Returns `none` when the block deleted
itself, together with the emitted events. -/
def decrementStrong (s : ControlBlock) : Option ControlBlock × List Event :=
  let prev := s.strongRefs
  let s1 : ControlBlock := { s with strongRefs := fetchSub1 s.strongRefs }
  if prev = 1 then
    let evs :=
      if s1.objectPtr then
        [Event.untrack, Event.destroyPayload DestroyPath.allocatorDeallocate]
      else []
    let s2 : ControlBlock := { s1 with objectPtr := false }
    if s2.weakRefs = 0 then
      (none, evs ++ cbDestructor s2 ++ [Event.deleteCB])
    else
      (some s2, evs)
  else
    (some s1, [])

/-- `decrementWeak()`: `prev = weakRefs.fetch_sub(1)`; if `prev == 1` and
`strongRefs == 0` then `delete this` (destructor then control-block
destruction). -/
def decrementWeak (s : ControlBlock) : Option ControlBlock × List Event :=
  let prev := s.weakRefs
  let s1 : ControlBlock := { s with weakRefs := fetchSub1 s.weakRefs }
  if prev = 1 then
    if s1.strongRefs = 0 then
      (none, cbDestructor s1 ++ [Event.deleteCB])
    else
      (some s1, [])
  else
    (some s1, [])

/-- The result of reading the stored `typeInfo`: the raw-pointer
constructor never sets the member, so reading it then is an
uninitialized read (undefined behavior), modelled as `none`. -/
def readTypeInfo (s : ControlBlock) : Option Nat := s.typeInfo

/-- `cast<U>()`: evaluates `typeid(U) == *typeInfo` first (an
uninitialized read when `typeInfo` was never set, yielding `none`);
on the success condition returns `static_cast<U*>(objectPtr)`, else
`nullptr`. `staticallyRelated` models
`is_base_of_v<U, T> || is_base_of_v<T, U>`. The inner value records
whether the returned pointer is non-null. -/
def cast (s : ControlBlock) (u : Nat) (staticallyRelated : Bool) :
    Option Bool :=
  match s.typeInfo with
  | none => none
  | some ti =>
      some (if u = ti || staticallyRelated then s.objectPtr else false)

/-- `deallocateObject()`: if the payload is live, `UNTRACK_ALLOC` then
branch on `*typeInfo == typeid(T)` (an uninitialized read when
`typeInfo` was never set, yielding `none`): equal types take
`Allocator::deallocate`, differing types take `operator delete`; then
null the payload. -/
def deallocateObject (s : ControlBlock) :
    Option (ControlBlock × List Event) :=
  if s.objectPtr then
    match s.typeInfo with
    | none => none
    | some ti =>
        let path :=
          if ti = s.staticT then DestroyPath.allocatorDeallocate
          else DestroyPath.operatorDelete
        some ({ s with objectPtr := false },
              [Event.untrack, Event.destroyPayload path])
  else
    some (s, [])

end ControlBlock

/-!
Handle layer. A handle is modelled by a `Bool` (whether its
`controlBlock` member is non-null) together with the referenced block's
state, an `Option ControlBlock` (`none` once the block ran
`delete this`). All handles in a scenario reference the same block, as in
the claims.
-/

/-- Possible outcomes of `ReferenceBase::operator->`. -/
inductive DerefOutcome where
  | raisedNullError
  | returned (nonNull : Bool)
deriving DecidableEq, Repr

/-- Possible outcomes of `ReferenceBase::operator*`. `nullDeref` is the
undefined behavior of dereferencing a null payload pointer. -/
inductive StarOutcome where
  | raisedNullError
  | nullDeref
  | valueRef
deriving DecidableEq, Repr

namespace ReferenceBase

/-- `get()`: `controlBlock ? controlBlock->get() : nullptr`; the result
records whether the returned pointer is non-null. -/
def get (h : Bool) (w : Option ControlBlock) : Bool :=
  if h then
    match w with
    | some s => s.objectPtr
    | none => false
  else false

/-- `operator->()`: `return get();` — declared `noexcept`, no null
check, so it always takes the `returned` outcome. -/
def arrow (h : Bool) (w : Option ControlBlock) : DerefOutcome :=
  DerefOutcome.returned (get h w)

/-- `operator*()`: `return *get();` — declared `noexcept`, no null
check; dereferencing the null result of `get()` is undefined
behavior. -/
def star (h : Bool) (w : Option ControlBlock) : StarOutcome :=
  if get h w then StarOutcome.valueRef else StarOutcome.nullDeref

/-- `isValid()`: `controlBlock and controlBlock->hadObject()`. -/
def isValid (h : Bool) (w : Option ControlBlock) : Bool :=
  h && (match w with
        | some s => s.hadObject
        | none => false)

/-- `useCount()`: `controlBlock ? controlBlock->strongCount() : 0`. -/
def useCount (h : Bool) (w : Option ControlBlock) : Nat :=
  if h then
    match w with
    | some s => s.strongCount
    | none => 0
  else 0

/-- `reset()`: `if (controlBlock) { controlBlock->decrementStrong();
controlBlock = nullptr; }` — inherited unchanged by both `Ref` and
`WeakRef`, so a weak handle's `reset()` also calls `decrementStrong`. -/
def reset (h : Bool) (w : Option ControlBlock) :
    Bool × Option ControlBlock × List Event :=
  if h then
    match w with
    | some s =>
        let r := ControlBlock.decrementStrong s
        (false, r.1, r.2)
    | none => (false, none, [])
  else (h, w, [])

end ReferenceBase

namespace Ref

/-- `Ref::release()`: `if (controlBlock) { controlBlock->decrementStrong();
controlBlock = nullptr; }`; the destructor `~Ref()` just calls this. -/
def release (h : Bool) (w : Option ControlBlock) :
    Option ControlBlock × List Event :=
  if h then
    match w with
    | some s => ControlBlock.decrementStrong s
    | none => (none, [])
  else (w, [])

/-- `Ref::Ref(const Ref&)`: adopt the same `controlBlock`, then
`retain()` (`if (controlBlock) controlBlock->incrementStrong();`).
Returns the new handle and the updated block. -/
def copy (h : Bool) (w : Option ControlBlock) :
    Bool × Option ControlBlock :=
  (h, if h then w.map ControlBlock.incrementStrong else w)

/-- N successive copy constructions of a live strong handle, each
performing one `incrementStrong` on the shared block. -/
def copyN : Nat → ControlBlock → ControlBlock
  | 0, s => s
  | n + 1, s => copyN n (ControlBlock.incrementStrong s)

/-- N successive destructions of strong handles on the shared block,
each performing one `decrementStrong`. -/
def releaseN : Nat → Option ControlBlock → Option ControlBlock × List Event
  | 0, w => (w, [])
  | n + 1, w =>
    match w with
    | some s =>
        let r := ControlBlock.decrementStrong s
        let r2 := releaseN n r.1
        (r2.1, r.2 ++ r2.2)
    | none => (none, [])

end Ref

namespace WeakRef

/-- `WeakRef::release()`: `if (controlBlock) {
controlBlock->decrementWeak(); controlBlock = nullptr; }`; the
destructor `~WeakRef()` just calls this. -/
def release (h : Bool) (w : Option ControlBlock) :
    Option ControlBlock × List Event :=
  if h then
    match w with
    | some s => ControlBlock.decrementWeak s
    | none => (none, [])
  else (w, [])

/-- `WeakRef(const Ref&)` and `WeakRef(const WeakRef&)`: adopt the same
`controlBlock`, then `retain()`
(`if (controlBlock) controlBlock->incrementWeak();`). -/
def copy (h : Bool) (w : Option ControlBlock) :
    Bool × Option ControlBlock :=
  (h, if h then w.map ControlBlock.incrementWeak else w)

/-- `expired()`: `!controlBlock || controlBlock->strongCount() == 0`. -/
def expired (h : Bool) (w : Option ControlBlock) : Bool :=
  !h || (match w with
         | some s => decide (s.strongCount = 0)
         | none => true)

/-- `canLock()`: `controlBlock && controlBlock->strongCount() > 0`. -/
def canLock (h : Bool) (w : Option ControlBlock) : Bool :=
  h && (match w with
        | some s => decide (0 < s.strongCount)
        | none => false)

/-- The second half of `lock()`: given the already-computed result of
the `canLock()` read, `controlBlock->incrementStrong()` and return a
populated `Ref`, else return an empty `Ref`. In the source these are
two separate atomic accesses, not one compare-and-swap. -/
def lockFinish (saw : Bool) (w : Option ControlBlock) :
    Bool × Option ControlBlock :=
  if saw then (true, w.map ControlBlock.incrementStrong) else (false, w)

/-- `lock()`: `if (canLock()) { controlBlock->incrementStrong(); return
Ref(controlBlock); } return Ref();` — a check followed by a separate
increment. -/
def lock (h : Bool) (w : Option ControlBlock) :
    Bool × Option ControlBlock :=
  lockFinish (canLock h w) w

end WeakRef

/-- A store of strong or weak handles all referencing the same control
block, for the assignment operators, which compare the addresses of the
two handles (`this != &other`): handle identity is the list index. -/
structure RefWorld where
  handles : List Bool
  cb : Option ControlBlock
deriving DecidableEq

/-- The handle stored at index `i` (whether its `controlBlock` member is
non-null). -/
def RefWorld.getH (w : RefWorld) (i : Nat) : Bool := w.handles.getD i false

/-- `Ref::operator=(const Ref& other)`: `if (this != &other) { release();
controlBlock = other.controlBlock; retain(); }`. -/
def refCopyAssign (w : RefWorld) (i j : Nat) : RefWorld × List Event :=
  if i = j then (w, [])
  else
    let r := Ref.release (w.getH i) w.cb
    let w1 : RefWorld := { handles := w.handles.set i false, cb := r.1 }
    let hj := w1.getH j
    ({ handles := w1.handles.set i hj,
       cb := if hj then w1.cb.map ControlBlock.incrementStrong else w1.cb },
     r.2)

/-- `Ref::operator=(Ref&& other)`: `if (this != &other) { release();
controlBlock = other.controlBlock; other.controlBlock = nullptr; }`. -/
def refMoveAssign (w : RefWorld) (i j : Nat) : RefWorld × List Event :=
  if i = j then (w, [])
  else
    let r := Ref.release (w.getH i) w.cb
    let hs := w.handles.set i false
    let hj := hs.getD j false
    ({ handles := (hs.set i hj).set j false, cb := r.1 }, r.2)

/-- `WeakRef::operator=(const WeakRef& other)`: same shape as the strong
copy assignment, with `decrementWeak`/`incrementWeak`. -/
def weakCopyAssign (w : RefWorld) (i j : Nat) : RefWorld × List Event :=
  if i = j then (w, [])
  else
    let r := WeakRef.release (w.getH i) w.cb
    let w1 : RefWorld := { handles := w.handles.set i false, cb := r.1 }
    let hj := w1.getH j
    ({ handles := w1.handles.set i hj,
       cb := if hj then w1.cb.map ControlBlock.incrementWeak else w1.cb },
     r.2)

/-- `WeakRef::operator=(WeakRef&& other)`: same shape as the strong move
assignment, with `decrementWeak`. -/
def weakMoveAssign (w : RefWorld) (i j : Nat) : RefWorld × List Event :=
  if i = j then (w, [])
  else
    let r := WeakRef.release (w.getH i) w.cb
    let hs := w.handles.set i false
    let hj := hs.getD j false
    ({ handles := (hs.set i hj).set j false, cb := r.1 }, r.2)

/-!
Operation sequences on one control block, for the lifecycle claims.
-/

/-- The four counter operations of `ControlBlock`. -/
inductive CBOp where
  | incS
  | decS
  | incW
  | decW
deriving DecidableEq, Repr

/-- One counter operation on a live control block. -/
def cbStep : CBOp → ControlBlock → Option ControlBlock × List Event
  | CBOp.incS, s => (some (ControlBlock.incrementStrong s), [])
  | CBOp.decS, s => ControlBlock.decrementStrong s
  | CBOp.incW, s => (some (ControlBlock.incrementWeak s), [])
  | CBOp.decW, s => ControlBlock.decrementWeak s

/-- Run a sequence of counter operations; once the block has destroyed
itself no further operation executes. -/
def cbRun : List CBOp → Option ControlBlock → Option ControlBlock × List Event
  | [], w => (w, [])
  | _ :: _, none => (none, [])
  | op :: ops, some s =>
      let r := cbStep op s
      let r2 := cbRun ops r.1
      (r2.1, r.2 ++ r2.2)

/-- Number of `destroyPayload` events in a trace. -/
def destroyCount (evs : List Event) : Nat :=
  evs.countP (fun e =>
    match e with
    | Event.destroyPayload _ => true
    | _ => false)

/-- Number of `deleteCB` events in a trace. -/
def deleteCount (evs : List Event) : Nat :=
  evs.countP (fun e =>
    match e with
    | Event.deleteCB => true
    | _ => false)

/-- Number of `incrementStrong` operations in a sequence. -/
def countIncS (ops : List CBOp) : Nat :=
  ops.countP (fun op =>
    match op with
    | CBOp.incS => true
    | _ => false)

/-- Weak-handle lifecycle operations: construction of a `WeakRef` from a
live `Ref` or from another `WeakRef` (both call `incrementWeak`), move
construction (pointer transfer, no count change), and destruction of a
non-empty or of an empty (moved-from) weak handle. -/
inductive WeakOp where
  | fromStrong
  | copyW
  | moveW
  | destroyW
  | destroyEmptyW
deriving DecidableEq, Repr

/-- Effect of one weak-handle lifecycle operation on the shared block. -/
def weakOpStep : WeakOp → ControlBlock → Option ControlBlock × List Event
  | WeakOp.fromStrong, s => (some (ControlBlock.incrementWeak s), [])
  | WeakOp.copyW, s => (some (ControlBlock.incrementWeak s), [])
  | WeakOp.moveW, s => (some s, [])
  | WeakOp.destroyW, s => ControlBlock.decrementWeak s
  | WeakOp.destroyEmptyW, s => (some s, [])

/-- Run a sequence of weak-handle lifecycle operations. -/
def weakOpRun : List WeakOp → Option ControlBlock → Option ControlBlock × List Event
  | [], w => (w, [])
  | _ :: _, none => (none, [])
  | op :: ops, some s =>
      let r := weakOpStep op s
      let r2 := weakOpRun ops r.1
      (r2.1, r.2 ++ r2.2)

/-!
Theorems. First some arithmetic facts about the wrapping counters.
-/

theorem size_t_mod_pos : 0 < size_t_mod := by
  unfold size_t_mod
  positivity

theorem fetchAdd1_eq {c : Nat} (h : c + 1 < size_t_mod) : fetchAdd1 c = c + 1 := by
  unfold fetchAdd1
  exact Nat.mod_eq_of_lt h

theorem fetchSub1_eq {c : Nat} (h1 : 1 ≤ c) (h2 : c < size_t_mod) :
    fetchSub1 c = c - 1 := by
  have hm : 0 < size_t_mod := size_t_mod_pos
  have h : c + (size_t_mod - 1) = (c - 1) + size_t_mod := by omega
  rw [fetchSub1, h, Nat.add_mod_right, Nat.mod_eq_of_lt (by omega)]

/-- C1 counterexample: the claim says dereferencing an empty Strong
Handle raises an immediate, catchable null-dereference error. At the
concrete empty handle, `operator->` returns the null payload pointer
normally and `operator*` proceeds to dereference it; neither operator
takes an error outcome. -/
theorem C1_counterexample :
    ReferenceBase.arrow false (some (ControlBlock.construct 0))
        = DerefOutcome.returned false
    ∧ ReferenceBase.arrow false (some (ControlBlock.construct 0))
        ≠ DerefOutcome.raisedNullError
    ∧ ReferenceBase.star false (some (ControlBlock.construct 0))
        = StarOutcome.nullDeref
    ∧ ReferenceBase.star false (some (ControlBlock.construct 0))
        ≠ StarOutcome.raisedNullError := by
  decide

/-- C1 amended: both dereference operators are `noexcept` and perform no
null check — on an empty handle `operator->` returns the null payload
pointer and `operator*` dereferences it (undefined behavior); no
null-dereference error is ever raised by either operator. -/
theorem C1_empty_handle_deref (w : Option ControlBlock) :
    ReferenceBase.arrow false w = DerefOutcome.returned false
    ∧ ReferenceBase.star false w = StarOutcome.nullDeref
    ∧ (∀ h : Bool, ReferenceBase.arrow h w ≠ DerefOutcome.raisedNullError
        ∧ ReferenceBase.star h w ≠ StarOutcome.raisedNullError) := by
  refine ⟨rfl, rfl, fun h => ⟨?_, ?_⟩⟩
  · simp [ReferenceBase.arrow]
  · unfold ReferenceBase.star
    split <;> simp

/-- C8: self-assignment, by copy or by move, of a strong or of a weak
handle is a complete no-op (the `this != &other` guard fails), so the
handle store and the control block are unchanged; in particular
`useCount()` and the payload address `get()` are unchanged and the
handle stays fully valid. -/
theorem C8_self_assignment (w : RefWorld) (i : Nat) :
    refCopyAssign w i i = (w, [])
    ∧ refMoveAssign w i i = (w, [])
    ∧ weakCopyAssign w i i = (w, [])
    ∧ weakMoveAssign w i i = (w, [])
    ∧ ReferenceBase.useCount ((refCopyAssign w i i).1.getH i)
        (refCopyAssign w i i).1.cb
        = ReferenceBase.useCount (w.getH i) w.cb
    ∧ ReferenceBase.get ((refCopyAssign w i i).1.getH i)
        (refCopyAssign w i i).1.cb
        = ReferenceBase.get (w.getH i) w.cb := by
  simp [refCopyAssign, refMoveAssign, weakCopyAssign, weakMoveAssign]

/-- C10: the raw-pointer constructor `ControlBlock(T*)` leaves
`typeInfo` unset (only the argument-forwarding constructor sets it to
`&typeid(T)`); on every block it builds, `cast<U>()` evaluates
`*typeInfo` first and `deallocateObject()` branches on `*typeInfo`, so
both read the uninitialized type tag (modelled by the `none` result). -/
theorem C10_raw_ctor_typeInfo_unset (t u : Nat) (rel nonNull : Bool) :
    (ControlBlock.constructRaw t nonNull).typeInfo = none
    ∧ ControlBlock.cast (ControlBlock.constructRaw t nonNull) u rel = none
    ∧ ControlBlock.deallocateObject (ControlBlock.constructRaw t true) = none
    ∧ (ControlBlock.construct t).typeInfo = some t :=
  ⟨rfl, rfl, rfl, rfl⟩

/-- C5: on a non-empty weak handle (which owns one weak-count unit, so
`weakRefs ≥ 1`), the inherited `ReferenceBase::reset()` unconditionally
calls `decrementStrong` on the referenced block: the strong count drops
by one, the weak count is untouched, the handle becomes empty, and the
payload is destroyed exactly when the strong count was 1. -/
theorem C5_weak_reset_decrements_strong (s : ControlBlock)
    (h1 : 1 ≤ s.strongRefs) (h2 : s.strongRefs < size_t_mod)
    (h3 : 1 ≤ s.weakRefs) :
    (ReferenceBase.reset true (some s)).1 = false
    ∧ ∃ s2 : ControlBlock,
        (ReferenceBase.reset true (some s)).2.1 = some s2
        ∧ s2.strongRefs = s.strongRefs - 1
        ∧ s2.weakRefs = s.weakRefs
        ∧ s2.objectPtr = (if s.strongRefs = 1 then false else s.objectPtr) := by
  obtain ⟨op, ti, st, sr, wr⟩ := s
  simp only at h1 h2 h3
  constructor
  · simp [ReferenceBase.reset]
  · by_cases hs1 : sr = 1
    · have hw : ¬ wr = 0 := by omega
      have hf : fetchSub1 1 = 0 := by decide
      subst hs1
      refine ⟨⟨false, ti, st, 0, wr⟩, ?_, by simp, by simp, by simp⟩
      simp [ReferenceBase.reset, ControlBlock.decrementStrong, hf, hw]
    · refine ⟨⟨op, ti, st, sr - 1, wr⟩, ?_, by simp, by simp, by simp [hs1]⟩
      simp [ReferenceBase.reset, ControlBlock.decrementStrong, hs1,
            fetchSub1_eq h1 h2]

/-- C5 witness: a concrete non-empty weak handle on a block with strong
count 2 and weak count 1. -/
theorem C5_witness :
    1 ≤ (⟨true, some 0, 0, 2, 1⟩ : ControlBlock).strongRefs
    ∧ (⟨true, some 0, 0, 2, 1⟩ : ControlBlock).strongRefs < size_t_mod
    ∧ 1 ≤ (⟨true, some 0, 0, 2, 1⟩ : ControlBlock).weakRefs
    ∧ ((ReferenceBase.reset true (some ⟨true, some 0, 0, 2, 1⟩)).1 = false
       ∧ ∃ s2 : ControlBlock,
           (ReferenceBase.reset true (some ⟨true, some 0, 0, 2, 1⟩)).2.1 = some s2
           ∧ s2.strongRefs = (⟨true, some 0, 0, 2, 1⟩ : ControlBlock).strongRefs - 1
           ∧ s2.weakRefs = (⟨true, some 0, 0, 2, 1⟩ : ControlBlock).weakRefs
           ∧ s2.objectPtr
             = (if (⟨true, some 0, 0, 2, 1⟩ : ControlBlock).strongRefs = 1
                then false
                else (⟨true, some 0, 0, 2, 1⟩ : ControlBlock).objectPtr)) :=
  ⟨by decide, by decide, by decide,
   C5_weak_reset_decrements_strong _ (by decide) (by decide) (by decide)⟩

/-- C6: `lock()` on a weak handle whose block has a positive strong
count increments it by one and returns a populated strong handle to the
same block; on an empty weak handle or a block with strong count zero it
returns an empty handle and leaves the block unchanged. In the concrete
scenario (weak handle created from a strong one, then the strong handle
destroyed) `expired()` is true and `lock()` returns an empty handle. -/
theorem C6_lock_behavior (s : ControlBlock) (w : Option ControlBlock)
    (hmod : s.strongRefs + 1 < size_t_mod) :
    (0 < s.strongRefs →
        WeakRef.lock true (some s)
          = (true, some { s with strongRefs := s.strongRefs + 1 }))
    ∧ (s.strongRefs = 0 → WeakRef.lock true (some s) = (false, some s))
    ∧ WeakRef.lock false w = (false, w)
    ∧ WeakRef.expired true
        (ControlBlock.decrementStrong
          (ControlBlock.incrementWeak (ControlBlock.construct 7))).1 = true
    ∧ WeakRef.lock true
        (ControlBlock.decrementStrong
          (ControlBlock.incrementWeak (ControlBlock.construct 7))).1
        = (false, (ControlBlock.decrementStrong
            (ControlBlock.incrementWeak (ControlBlock.construct 7))).1) := by
  refine ⟨?_, ?_, ?_, by decide, by decide⟩
  · intro h
    simp [WeakRef.lock, WeakRef.lockFinish, WeakRef.canLock,
          ControlBlock.strongCount, h, ControlBlock.incrementStrong,
          fetchAdd1_eq hmod]
  · intro h
    simp [WeakRef.lock, WeakRef.lockFinish, WeakRef.canLock,
          ControlBlock.strongCount, h]
  · simp [WeakRef.lock, WeakRef.lockFinish, WeakRef.canLock]

/-- C6 witness: a freshly constructed block with strong count 1. -/
theorem C6_witness :
    (ControlBlock.construct 3).strongRefs + 1 < size_t_mod
    ∧ ((0 < (ControlBlock.construct 3).strongRefs →
          WeakRef.lock true (some (ControlBlock.construct 3))
            = (true, some { ControlBlock.construct 3 with
                strongRefs := (ControlBlock.construct 3).strongRefs + 1 }))
       ∧ ((ControlBlock.construct 3).strongRefs = 0 →
          WeakRef.lock true (some (ControlBlock.construct 3))
            = (false, some (ControlBlock.construct 3)))
       ∧ WeakRef.lock false none = (false, none)
       ∧ WeakRef.expired true
           (ControlBlock.decrementStrong
             (ControlBlock.incrementWeak (ControlBlock.construct 7))).1 = true
       ∧ WeakRef.lock true
           (ControlBlock.decrementStrong
             (ControlBlock.incrementWeak (ControlBlock.construct 7))).1
           = (false, (ControlBlock.decrementStrong
               (ControlBlock.incrementWeak (ControlBlock.construct 7))).1)) :=
  ⟨by decide, C6_lock_behavior (ControlBlock.construct 3) none (by decide)⟩

/-- C3: the claim says `lock()` performs its check-and-increment as a
single compare-and-increment loop so it never hands out a strong handle
to a payload being destroyed. In the source, `lock()` is a `canLock()`
read followed by a separate `incrementStrong()` (last conjunct). In the
interleaving where thread A's `canLock()` reads strong count 1, then
thread B's last strong handle runs `decrementStrong` (observing the
1-to-0 transition and destroying the payload), then thread A completes
`lock()`: A receives a populated strong handle (`lockFinish` returns
`true`) to a block whose payload is already destroyed (`isValid` is
false, yet the handle's `useCount()` is 1). -/
theorem C3_lock_race_trace :
    WeakRef.canLock true (some ⟨true, some 0, 0, 1, 1⟩) = true
    ∧ ControlBlock.decrementStrong ⟨true, some 0, 0, 1, 1⟩
        = (some ⟨false, some 0, 0, 0, 1⟩,
           [Event.untrack, Event.destroyPayload DestroyPath.allocatorDeallocate])
    ∧ WeakRef.lockFinish true (some ⟨false, some 0, 0, 0, 1⟩)
        = (true, some ⟨false, some 0, 0, 1, 1⟩)
    ∧ ReferenceBase.isValid true (some ⟨false, some 0, 0, 1, 1⟩) = false
    ∧ ReferenceBase.useCount true (some ⟨false, some 0, 0, 1, 1⟩) = 1
    ∧ (∀ (h : Bool) (w : Option ControlBlock),
        WeakRef.lock h w = WeakRef.lockFinish (WeakRef.canLock h w) w) :=
  ⟨by decide, by decide, by decide, by decide, by decide, fun h w => rfl⟩

/-- C4: when `decrementStrong` observes the 1-to-0 transition it does
untrack the payload from the ledger and null the pointer, but it
destroys the payload by calling `Allocator::deallocate` on the static
type directly — it never consults `typeInfo` (second conjunct: its
result is independent of the stored type tag), even when the stored
dynamic type (1) differs from the static type (0). The `typeTag`
dispatch the claim describes exists only in `deallocateObject` (third
conjunct), which no code path calls. -/
theorem C4_decrementStrong_no_typeTag_dispatch :
    ControlBlock.decrementStrong ⟨true, some 1, 0, 1, 1⟩
      = (some ⟨false, some 1, 0, 0, 1⟩,
         [Event.untrack, Event.destroyPayload DestroyPath.allocatorDeallocate])
    ∧ (∀ (ti : Option Nat) (s : ControlBlock),
        (ControlBlock.decrementStrong { s with typeInfo := ti }).2
          = (ControlBlock.decrementStrong s).2
        ∧ (ControlBlock.decrementStrong { s with typeInfo := ti }).1
          = (ControlBlock.decrementStrong s).1.map
              (fun s2 => { s2 with typeInfo := ti }))
    ∧ ControlBlock.deallocateObject ⟨true, some 1, 0, 1, 1⟩
      = some (⟨false, some 1, 0, 1, 1⟩,
              [Event.untrack, Event.destroyPayload DestroyPath.operatorDelete]) := by
  refine ⟨by decide, ?_, by decide⟩
  intro ti s
  obtain ⟨op, ti0, st, sr, wr⟩ := s
  cases op <;> by_cases h1 : sr = 1 <;> by_cases h2 : wr = 0 <;>
    simp [ControlBlock.decrementStrong, ControlBlock.cbDestructor, h1, h2]

theorem copyN_eq (n : Nat) (s : ControlBlock)
    (h : s.strongRefs + n < size_t_mod) :
    Ref.copyN n s = { s with strongRefs := s.strongRefs + n } := by
  induction n generalizing s with
  | zero => rfl
  | succ n ih =>
      have h1 : s.strongRefs + 1 < size_t_mod := by omega
      rw [Ref.copyN, ControlBlock.incrementStrong, fetchAdd1_eq h1,
          ih { s with strongRefs := s.strongRefs + 1 } (by simpa using by omega)]
      simp
      omega

theorem releaseN_eq (n : Nat) : ∀ (c : Nat) (s : ControlBlock),
    1 ≤ c → c + n < size_t_mod → s.strongRefs = c + n →
    Ref.releaseN n (some s) = (some { s with strongRefs := c }, []) := by
  induction n with
  | zero =>
      intro c s hc hmod hs
      obtain ⟨op, ti, st, sr, wr⟩ := s
      simp only at hs
      subst hs
      simp [Ref.releaseN]
  | succ n ih =>
      intro c s hc hmod hs
      have hne : ¬ s.strongRefs = 1 := by omega
      have hsub : fetchSub1 s.strongRefs = c + n := by
        rw [fetchSub1_eq (by omega) (by omega), hs]
        omega
      rw [Ref.releaseN]
      simp only [ControlBlock.decrementStrong, hne, if_false]
      rw [hsub, ih c { s with strongRefs := c + n } hc (by omega) (by simp)]
      simp

/-- C7: count conservation — starting from a live strong handle whose
block has strong count `c ≥ 1`, N copy constructions followed by N
destructions of the copies return the block to strong count `c`
unchanged, with no destruction events. Concretely: a fresh handle over a
block reports `useCount() == 1`; after one copy both handles report
`useCount() == 2`; after destroying the copy the original reports
`useCount() == 1` again. -/
theorem C7_count_conservation (s : ControlBlock) (N : Nat)
    (hc : 1 ≤ s.strongRefs) (hmod : s.strongRefs + N < size_t_mod) :
    Ref.releaseN N (some (Ref.copyN N s)) = (some s, [])
    ∧ ReferenceBase.useCount true (some (ControlBlock.construct 42)) = 1
    ∧ (Ref.copy true (some (ControlBlock.construct 42))).1 = true
    ∧ ReferenceBase.useCount (Ref.copy true (some (ControlBlock.construct 42))).1
        (Ref.copy true (some (ControlBlock.construct 42))).2 = 2
    ∧ ReferenceBase.useCount true
        (Ref.copy true (some (ControlBlock.construct 42))).2 = 2
    ∧ ReferenceBase.useCount true
        (Ref.release true (Ref.copy true (some (ControlBlock.construct 42))).2).1
        = 1 := by
  refine ⟨?_, by decide, by decide, by decide, by decide, by decide⟩
  rw [copyN_eq N s hmod,
      releaseN_eq N s.strongRefs { s with strongRefs := s.strongRefs + N }
        hc hmod (by simp)]

/-- C7 witness: a block with strong count 1 and N = 2. -/
theorem C7_witness :
    1 ≤ (ControlBlock.construct 5).strongRefs
    ∧ (ControlBlock.construct 5).strongRefs + 2 < size_t_mod
    ∧ (Ref.releaseN 2 (some (Ref.copyN 2 (ControlBlock.construct 5)))
        = (some (ControlBlock.construct 5), [])
       ∧ ReferenceBase.useCount true (some (ControlBlock.construct 42)) = 1
       ∧ (Ref.copy true (some (ControlBlock.construct 42))).1 = true
       ∧ ReferenceBase.useCount (Ref.copy true (some (ControlBlock.construct 42))).1
           (Ref.copy true (some (ControlBlock.construct 42))).2 = 2
       ∧ ReferenceBase.useCount true
           (Ref.copy true (some (ControlBlock.construct 42))).2 = 2
       ∧ ReferenceBase.useCount true
           (Ref.release true
             (Ref.copy true (some (ControlBlock.construct 42))).2).1 = 1) :=
  ⟨by decide, by decide,
   C7_count_conservation (ControlBlock.construct 5) 2 (by decide) (by decide)⟩

theorem weakOpRun_none (ops : List WeakOp) : weakOpRun ops none = (none, []) := by
  cases ops <;> rfl

theorem weakOpStep_frame (op : WeakOp) (s : ControlBlock)
    (hinv : s.objectPtr = true → 1 ≤ s.strongRefs) :
    (∀ pth : DestroyPath, Event.destroyPayload pth ∉ (weakOpStep op s).2)
    ∧ (∀ s1 : ControlBlock, (weakOpStep op s).1 = some s1 →
        s1.strongRefs = s.strongRefs ∧ s1.objectPtr = s.objectPtr)
    ∧ ((weakOpStep op s).1 = none → s.strongRefs = 0) := by
  cases op with
  | fromStrong => simp [weakOpStep, ControlBlock.incrementWeak]
  | copyW => simp [weakOpStep, ControlBlock.incrementWeak]
  | moveW => simp [weakOpStep]
  | destroyEmptyW => simp [weakOpStep]
  | destroyW =>
      by_cases h1 : s.weakRefs = 1
      · by_cases h2 : s.strongRefs = 0
        · have hop : s.objectPtr = false := by
            cases hop2 : s.objectPtr
            · rfl
            · exact absurd (hinv hop2) (by omega)
          simp [weakOpStep, ControlBlock.decrementWeak,
                ControlBlock.cbDestructor, h1, h2, hop]
        · simp [weakOpStep, ControlBlock.decrementWeak, h1, h2]
      · simp [weakOpStep, ControlBlock.decrementWeak, h1]

/-- C9: on a block satisfying the reachable-state invariant (a live
payload implies a positive strong count), any sequence of weak-handle
lifecycle operations — constructing weak handles from a strong handle,
copying or moving weak handles, destroying them — never emits a payload
destruction, leaves the strong count and the payload pointer of a
surviving block exactly as they were, and can delete the control block
itself only when the strong count was already zero. -/
theorem C9_weak_ops_frame (ops : List WeakOp) (s : ControlBlock)
    (hinv : s.objectPtr = true → 1 ≤ s.strongRefs) :
    (∀ pth : DestroyPath,
        Event.destroyPayload pth ∉ (weakOpRun ops (some s)).2)
    ∧ (∀ s2 : ControlBlock, (weakOpRun ops (some s)).1 = some s2 →
        s2.strongRefs = s.strongRefs ∧ s2.objectPtr = s.objectPtr)
    ∧ ((weakOpRun ops (some s)).1 = none → s.strongRefs = 0) := by
  induction ops generalizing s with
  | nil => simp [weakOpRun]
  | cons op rest ih =>
      obtain ⟨hd, hsome, hnone⟩ := weakOpStep_frame op s hinv
      have hrun : weakOpRun (op :: rest) (some s)
          = ((weakOpRun rest (weakOpStep op s).1).1,
             (weakOpStep op s).2 ++ (weakOpRun rest (weakOpStep op s).1).2) := rfl
      rcases hr : (weakOpStep op s).1 with _ | s1
      · rw [hrun, hr, weakOpRun_none]
        refine ⟨?_, ?_, ?_⟩
        · intro pth hmem
          exact hd pth (by simpa using hmem)
        · intro s2 h2
          exact absurd h2 (by simp)
        · intro _
          exact hnone hr
      · obtain ⟨hf1, hf2⟩ := hsome s1 hr
        obtain ⟨ha, hb, hc⟩ := ih s1 (by rw [hf1, hf2]; exact hinv)
        rw [hrun, hr]
        refine ⟨?_, ?_, ?_⟩
        · intro pth hmem
          rcases List.mem_append.mp hmem with hm | hm
          · exact hd pth hm
          · exact ha pth hm
        · intro s2 h2
          obtain ⟨hg1, hg2⟩ := hb s2 h2
          exact ⟨hg1.trans hf1, hg2.trans hf2⟩
        · intro h2
          rw [← hf1]
          exact hc h2

theorem cbRun_none (ops : List CBOp) : cbRun ops none = (none, []) := by
  cases ops <;> rfl

theorem destroyCount_append (a b : List Event) :
    destroyCount (a ++ b) = destroyCount a + destroyCount b := by
  simp [destroyCount, List.countP_append]

theorem deleteCount_append (a b : List Event) :
    deleteCount (a ++ b) = deleteCount a + deleteCount b := by
  simp [deleteCount, List.countP_append]

/-- Composition step for the lifecycle induction: an operation that kept
the block alive, emitted no events, and did not change the payload
flag. -/
theorem cbRun_cons_silent (op : CBOp) (rest : List CBOp) (s s1 : ControlBlock)
    (hstep : cbStep op s = (some s1, []))
    (hobj : s1.objectPtr = s.objectPtr)
    (h1 : ∀ s2 : ControlBlock, (cbRun rest (some s1)).1 = some s2 →
        destroyCount (cbRun rest (some s1)).2 + (if s2.objectPtr then 1 else 0)
          = (if s1.objectPtr then 1 else 0)
        ∧ deleteCount (cbRun rest (some s1)).2 = 0
        ∧ (s2.objectPtr = true → 1 ≤ s2.strongRefs))
    (h2 : (cbRun rest (some s1)).1 = none →
        destroyCount (cbRun rest (some s1)).2 = (if s1.objectPtr then 1 else 0)
        ∧ deleteCount (cbRun rest (some s1)).2 = 1) :
    (∀ s2 : ControlBlock, (cbRun (op :: rest) (some s)).1 = some s2 →
        destroyCount (cbRun (op :: rest) (some s)).2 + (if s2.objectPtr then 1 else 0)
          = (if s.objectPtr then 1 else 0)
        ∧ deleteCount (cbRun (op :: rest) (some s)).2 = 0
        ∧ (s2.objectPtr = true → 1 ≤ s2.strongRefs))
    ∧ ((cbRun (op :: rest) (some s)).1 = none →
        destroyCount (cbRun (op :: rest) (some s)).2 = (if s.objectPtr then 1 else 0)
        ∧ deleteCount (cbRun (op :: rest) (some s)).2 = 1) := by
  have hrun : cbRun (op :: rest) (some s)
      = ((cbRun rest (cbStep op s).1).1,
         (cbStep op s).2 ++ (cbRun rest (cbStep op s).1).2) := rfl
  have e1 : (cbStep op s).1 = some s1 := by rw [hstep]
  have e2 : (cbStep op s).2 = [] := by rw [hstep]
  rw [hrun, e1, e2]
  simp only [List.nil_append]
  rw [← hobj]
  exact ⟨h1, h2⟩

/-- Composition step for the lifecycle induction: the operation that
destroys the payload (or finds it already destroyed) while the block
itself survives. -/
theorem cbRun_cons_destroy (op : CBOp) (rest : List CBOp) (s s1 : ControlBlock)
    (evs : List Event)
    (hstep : cbStep op s = (some s1, evs))
    (hobj : s1.objectPtr = false)
    (hdc : destroyCount evs = (if s.objectPtr then 1 else 0))
    (hdel : deleteCount evs = 0)
    (h1 : ∀ s2 : ControlBlock, (cbRun rest (some s1)).1 = some s2 →
        destroyCount (cbRun rest (some s1)).2 + (if s2.objectPtr then 1 else 0)
          = (if s1.objectPtr then 1 else 0)
        ∧ deleteCount (cbRun rest (some s1)).2 = 0
        ∧ (s2.objectPtr = true → 1 ≤ s2.strongRefs))
    (h2 : (cbRun rest (some s1)).1 = none →
        destroyCount (cbRun rest (some s1)).2 = (if s1.objectPtr then 1 else 0)
        ∧ deleteCount (cbRun rest (some s1)).2 = 1) :
    (∀ s2 : ControlBlock, (cbRun (op :: rest) (some s)).1 = some s2 →
        destroyCount (cbRun (op :: rest) (some s)).2 + (if s2.objectPtr then 1 else 0)
          = (if s.objectPtr then 1 else 0)
        ∧ deleteCount (cbRun (op :: rest) (some s)).2 = 0
        ∧ (s2.objectPtr = true → 1 ≤ s2.strongRefs))
    ∧ ((cbRun (op :: rest) (some s)).1 = none →
        destroyCount (cbRun (op :: rest) (some s)).2 = (if s.objectPtr then 1 else 0)
        ∧ deleteCount (cbRun (op :: rest) (some s)).2 = 1) := by
  have hrun : cbRun (op :: rest) (some s)
      = ((cbRun rest (cbStep op s).1).1,
         (cbStep op s).2 ++ (cbRun rest (cbStep op s).1).2) := rfl
  have e1 : (cbStep op s).1 = some s1 := by rw [hstep]
  have e2 : (cbStep op s).2 = evs := by rw [hstep]
  rw [hrun, e1, e2]
  rw [hobj] at h1 h2
  simp only [if_neg Bool.false_ne_true] at h1 h2
  constructor
  · intro s2 hx
    obtain ⟨ha, hb, hc⟩ := h1 s2 hx
    obtain ⟨ha1, ha2⟩ := Nat.add_eq_zero.mp ha
    refine ⟨?_, ?_, hc⟩
    · rw [destroyCount_append, hdc, ha1, ha2]
      simp
    · rw [deleteCount_append, hb, hdel]
  · intro hx
    obtain ⟨ha, hb⟩ := h2 hx
    constructor
    · rw [destroyCount_append, hdc, ha]
      simp
    · rw [deleteCount_append, hb, hdel]

/-- Composition step for the lifecycle induction: the operation on
which the block runs `delete this`, ending the run. -/
theorem cbRun_cons_dead (op : CBOp) (rest : List CBOp) (s : ControlBlock)
    (evs : List Event)
    (hstep : cbStep op s = (none, evs))
    (hdc : destroyCount evs = (if s.objectPtr then 1 else 0))
    (hdel : deleteCount evs = 1) :
    (∀ s2 : ControlBlock, (cbRun (op :: rest) (some s)).1 = some s2 →
        destroyCount (cbRun (op :: rest) (some s)).2 + (if s2.objectPtr then 1 else 0)
          = (if s.objectPtr then 1 else 0)
        ∧ deleteCount (cbRun (op :: rest) (some s)).2 = 0
        ∧ (s2.objectPtr = true → 1 ≤ s2.strongRefs))
    ∧ ((cbRun (op :: rest) (some s)).1 = none →
        destroyCount (cbRun (op :: rest) (some s)).2 = (if s.objectPtr then 1 else 0)
        ∧ deleteCount (cbRun (op :: rest) (some s)).2 = 1) := by
  have hrun : cbRun (op :: rest) (some s)
      = ((cbRun rest (cbStep op s).1).1,
         (cbStep op s).2 ++ (cbRun rest (cbStep op s).1).2) := rfl
  have e1 : (cbStep op s).1 = none := by rw [hstep]
  have e2 : (cbStep op s).2 = evs := by rw [hstep]
  rw [hrun, e1, e2, cbRun_none]
  simp only [List.append_nil]
  constructor
  · intro s2 hx
    exact absurd hx (by simp)
  · intro _
    exact ⟨hdc, hdel⟩

/-- Master invariant of the counting state machine: starting from any
state whose live payload implies a positive strong count with no
overflow possible, a surviving run has `destroyPayload` events exactly
matching the payload-liveness transition (their count plus the final
liveness equals the initial liveness) and no `deleteCB` event, while a
run that ends with the block deleting itself has destroyed the payload
exactly once (when it was live at the start) and the block exactly
once. -/
theorem cbRun_master (ops : List CBOp) : ∀ s : ControlBlock,
    (s.objectPtr = true →
      1 ≤ s.strongRefs ∧ s.strongRefs + countIncS ops < size_t_mod) →
    (∀ s2 : ControlBlock, (cbRun ops (some s)).1 = some s2 →
        destroyCount (cbRun ops (some s)).2 + (if s2.objectPtr then 1 else 0)
          = (if s.objectPtr then 1 else 0)
        ∧ deleteCount (cbRun ops (some s)).2 = 0
        ∧ (s2.objectPtr = true → 1 ≤ s2.strongRefs))
    ∧ ((cbRun ops (some s)).1 = none →
        destroyCount (cbRun ops (some s)).2 = (if s.objectPtr then 1 else 0)
        ∧ deleteCount (cbRun ops (some s)).2 = 1) := by
  induction ops with
  | nil =>
      intro s hinv
      refine ⟨?_, ?_⟩
      · intro s2 hx
        simp only [cbRun, Option.some.injEq] at hx
        subst hx
        exact ⟨by simp [cbRun, destroyCount], by simp [cbRun, deleteCount],
               fun h => (hinv h).1⟩
      · intro hx
        exact absurd hx (by simp [cbRun])
  | cons op rest ih =>
      intro s hinv
      cases op with
      | incS =>
          have hcnt : countIncS (CBOp.incS :: rest) = countIncS rest + 1 := by
            simp [countIncS, List.countP_cons]
          have hinv2 : (ControlBlock.incrementStrong s).objectPtr = true →
              1 ≤ (ControlBlock.incrementStrong s).strongRefs
              ∧ (ControlBlock.incrementStrong s).strongRefs + countIncS rest
                  < size_t_mod := by
            intro hop
            have hx := hinv hop
            rw [hcnt] at hx
            have hadd : fetchAdd1 s.strongRefs = s.strongRefs + 1 :=
              fetchAdd1_eq (by omega)
            simp only [ControlBlock.incrementStrong, hadd]
            constructor
            · omega
            · omega
          obtain ⟨h1, h2⟩ := ih (ControlBlock.incrementStrong s) hinv2
          exact cbRun_cons_silent _ rest s _ rfl rfl h1 h2
      | incW =>
          have hcnt : countIncS (CBOp.incW :: rest) = countIncS rest := by
            simp [countIncS, List.countP_cons]
          have hinv2 : (ControlBlock.incrementWeak s).objectPtr = true →
              1 ≤ (ControlBlock.incrementWeak s).strongRefs
              ∧ (ControlBlock.incrementWeak s).strongRefs + countIncS rest
                  < size_t_mod := by
            intro hop
            have hx := hinv hop
            rw [hcnt] at hx
            exact hx
          obtain ⟨h1, h2⟩ := ih (ControlBlock.incrementWeak s) hinv2
          exact cbRun_cons_silent _ rest s _ rfl rfl h1 h2
      | decW =>
          have hcnt : countIncS (CBOp.decW :: rest) = countIncS rest := by
            simp [countIncS, List.countP_cons]
          by_cases hw : s.weakRefs = 1
          · by_cases hs0 : s.strongRefs = 0
            · have hop : s.objectPtr = false := by
                cases hop2 : s.objectPtr
                · rfl
                · exact absurd (hinv hop2).1 (by omega)
              have hstep : cbStep CBOp.decW s = (none, [Event.deleteCB]) := by
                simp [cbStep, ControlBlock.decrementWeak,
                      ControlBlock.cbDestructor, hw, hs0, hop]
              exact cbRun_cons_dead _ rest s _ hstep
                (by simp [destroyCount, hop]) (by simp [deleteCount])
            · have hstep : cbStep CBOp.decW s
                  = (some { s with weakRefs := fetchSub1 s.weakRefs }, []) := by
                simp [cbStep, ControlBlock.decrementWeak, hw, hs0]
              have hinv2 :
                  ({ s with weakRefs := fetchSub1 s.weakRefs } :
                      ControlBlock).objectPtr = true →
                  1 ≤ ({ s with weakRefs := fetchSub1 s.weakRefs } :
                      ControlBlock).strongRefs
                  ∧ ({ s with weakRefs := fetchSub1 s.weakRefs } :
                      ControlBlock).strongRefs + countIncS rest < size_t_mod := by
                intro hop
                have hx := hinv hop
                rw [hcnt] at hx
                exact hx
              obtain ⟨h1, h2⟩ := ih _ hinv2
              exact cbRun_cons_silent _ rest s _ hstep rfl h1 h2
          · have hstep : cbStep CBOp.decW s
                = (some { s with weakRefs := fetchSub1 s.weakRefs }, []) := by
              simp [cbStep, ControlBlock.decrementWeak, hw]
            have hinv2 :
                ({ s with weakRefs := fetchSub1 s.weakRefs } :
                    ControlBlock).objectPtr = true →
                1 ≤ ({ s with weakRefs := fetchSub1 s.weakRefs } :
                    ControlBlock).strongRefs
                ∧ ({ s with weakRefs := fetchSub1 s.weakRefs } :
                    ControlBlock).strongRefs + countIncS rest < size_t_mod := by
              intro hop
              have hx := hinv hop
              rw [hcnt] at hx
              exact hx
            obtain ⟨h1, h2⟩ := ih _ hinv2
            exact cbRun_cons_silent _ rest s _ hstep rfl h1 h2
      | decS =>
          have hcnt : countIncS (CBOp.decS :: rest) = countIncS rest := by
            simp [countIncS, List.countP_cons]
          by_cases hs1 : s.strongRefs = 1
          · have hf : fetchSub1 s.strongRefs = 0 := by
              rw [hs1]
              decide
            by_cases hw : s.weakRefs = 0
            · have hstep : cbStep CBOp.decS s
                  = (none, (if s.objectPtr then
                      [Event.untrack,
                       Event.destroyPayload DestroyPath.allocatorDeallocate]
                    else []) ++ [Event.deleteCB]) := by
                simp [cbStep, ControlBlock.decrementStrong,
                      ControlBlock.cbDestructor, hs1, hw]
              refine cbRun_cons_dead _ rest s _ hstep ?_ ?_
              · cases hop : s.objectPtr <;>
                  simp [hop, destroyCount, destroyCount_append]
              · cases hop : s.objectPtr <;>
                  simp [hop, deleteCount, deleteCount_append]
            · have hstep : cbStep CBOp.decS s
                  = (some { s with strongRefs := fetchSub1 s.strongRefs, objectPtr := false },
                     if s.objectPtr then
                       [Event.untrack,
                        Event.destroyPayload DestroyPath.allocatorDeallocate]
                     else []) := by
                simp [cbStep, ControlBlock.decrementStrong, hs1, hw]
              have hinv2 :
                  ({ s with strongRefs := fetchSub1 s.strongRefs, objectPtr := false } : ControlBlock).objectPtr = true →
                  1 ≤ ({ s with strongRefs := fetchSub1 s.strongRefs, objectPtr := false } : ControlBlock).strongRefs
                  ∧ ({ s with strongRefs := fetchSub1 s.strongRefs, objectPtr := false } : ControlBlock).strongRefs
                      + countIncS rest < size_t_mod := by
                intro hop
                exact absurd hop (by simp)
              obtain ⟨h1, h2⟩ := ih _ hinv2
              refine cbRun_cons_destroy _ rest s _ _ hstep rfl ?_ ?_ h1 h2
              · cases hop : s.objectPtr <;> simp [hop, destroyCount]
              · cases hop : s.objectPtr <;> simp [hop, deleteCount]
          · have hstep : cbStep CBOp.decS s
                = (some { s with strongRefs := fetchSub1 s.strongRefs }, []) := by
              simp [cbStep, ControlBlock.decrementStrong, hs1]
            have hinv2 :
                ({ s with strongRefs := fetchSub1 s.strongRefs } :
                    ControlBlock).objectPtr = true →
                1 ≤ ({ s with strongRefs := fetchSub1 s.strongRefs } :
                    ControlBlock).strongRefs
                ∧ ({ s with strongRefs := fetchSub1 s.strongRefs } :
                    ControlBlock).strongRefs + countIncS rest < size_t_mod := by
              intro hop
              obtain ⟨hx1, hx2⟩ := hinv hop
              rw [hcnt] at hx2
              have hsub : fetchSub1 s.strongRefs = s.strongRefs - 1 :=
                fetchSub1_eq hx1 (by omega)
              simp only [hsub]
              constructor
              · omega
              · omega
            obtain ⟨h1, h2⟩ := ih _ hinv2
            exact cbRun_cons_silent _ rest s _ hstep rfl h1 h2

/-- Events of a single step, characterized: under the reachable-state
invariant, a `destroyPayload` event can only come from `decrementStrong`
observing the strong count at 1 with the payload live, and a `deleteCB`
event only from `decrementStrong` at strong count 1 with weak count 0,
or from `decrementWeak` at weak count 1 with strong count 0. -/
theorem cbStep_event_sources (op : CBOp) (s1 : ControlBlock)
    (hinv : s1.objectPtr = true → 1 ≤ s1.strongRefs) :
    (∀ pth : DestroyPath, Event.destroyPayload pth ∈ (cbStep op s1).2 →
        op = CBOp.decS ∧ s1.strongRefs = 1 ∧ s1.objectPtr = true)
    ∧ (Event.deleteCB ∈ (cbStep op s1).2 →
        (op = CBOp.decS ∧ s1.strongRefs = 1 ∧ s1.weakRefs = 0)
        ∨ (op = CBOp.decW ∧ s1.weakRefs = 1 ∧ s1.strongRefs = 0)) := by
  cases op with
  | incS => simp [cbStep]
  | incW => simp [cbStep]
  | decS =>
      by_cases hs1 : s1.strongRefs = 1
      · by_cases hw : s1.weakRefs = 0 <;>
          cases hop : s1.objectPtr <;>
            simp [cbStep, ControlBlock.decrementStrong,
                  ControlBlock.cbDestructor, hs1, hw, hop]
      · simp [cbStep, ControlBlock.decrementStrong, hs1]
  | decW =>
      by_cases hw : s1.weakRefs = 1
      · by_cases hs0 : s1.strongRefs = 0
        · have hop : s1.objectPtr = false := by
            cases hop2 : s1.objectPtr
            · rfl
            · exact absurd (hinv hop2) (by omega)
          simp [cbStep, ControlBlock.decrementWeak,
                ControlBlock.cbDestructor, hw, hs0, hop]
        · simp [cbStep, ControlBlock.decrementWeak, hw, hs0]
      · simp [cbStep, ControlBlock.decrementWeak, hw]

/-- C2: in every operation sequence from a fresh block (strong 1, weak
0, live payload) in which fewer than `2^64 - 1` strong increments occur:
at most one `destroyPayload` event ever happens; a `destroyPayload`
event can only be produced by a `decrementStrong` observing the
1-to-0 strong transition with the payload live (after which the payload
is null), and a `deleteCB` event only by whichever decrement makes the
second of the two counts reach zero while the other is already zero;
if the run ends with the block deleting itself, the payload was
destroyed exactly once and the block exactly once, and while the block
survives no `deleteCB` event has occurred. -/
theorem C2_destruction_protocol (t : Nat) (ops : List CBOp)
    (hmod : 1 + countIncS ops < size_t_mod) :
    destroyCount (cbRun ops (some (ControlBlock.construct t))).2 ≤ 1
    ∧ ((cbRun ops (some (ControlBlock.construct t))).1 = none →
        destroyCount (cbRun ops (some (ControlBlock.construct t))).2 = 1
        ∧ deleteCount (cbRun ops (some (ControlBlock.construct t))).2 = 1)
    ∧ (∀ s2 : ControlBlock,
        (cbRun ops (some (ControlBlock.construct t))).1 = some s2 →
        deleteCount (cbRun ops (some (ControlBlock.construct t))).2 = 0)
    ∧ (∀ (op : CBOp) (s1 : ControlBlock),
        (s1.objectPtr = true → 1 ≤ s1.strongRefs) →
        (∀ pth : DestroyPath, Event.destroyPayload pth ∈ (cbStep op s1).2 →
            op = CBOp.decS ∧ s1.strongRefs = 1 ∧ s1.objectPtr = true)
        ∧ (Event.deleteCB ∈ (cbStep op s1).2 →
            (op = CBOp.decS ∧ s1.strongRefs = 1 ∧ s1.weakRefs = 0)
            ∨ (op = CBOp.decW ∧ s1.weakRefs = 1 ∧ s1.strongRefs = 0))) := by
  have hinv : (ControlBlock.construct t).objectPtr = true →
      1 ≤ (ControlBlock.construct t).strongRefs
      ∧ (ControlBlock.construct t).strongRefs + countIncS ops < size_t_mod := by
    intro _
    exact ⟨le_refl 1, by simpa [ControlBlock.construct] using hmod⟩
  obtain ⟨h1, h2⟩ := cbRun_master ops (ControlBlock.construct t) hinv
  have hct : (ControlBlock.construct t).objectPtr = true := rfl
  refine ⟨?_, ?_, ?_, cbStep_event_sources⟩
  · rcases hr : (cbRun ops (some (ControlBlock.construct t))).1 with _ | s2
    · obtain ⟨ha, _⟩ := h2 hr
      simp [hct] at ha
      omega
    · obtain ⟨ha, _, _⟩ := h1 s2 hr
      simp [hct] at ha
      cases h2ob : s2.objectPtr <;> simp [h2ob] at ha <;> omega
  · intro hr
    obtain ⟨ha, hb⟩ := h2 hr
    simp [hct] at ha
    exact ⟨ha, hb⟩
  · intro s2 hr
    exact (h1 s2 hr).2.1

/-- C2 witness: the sequence (create weak handle, destroy the strong
handle, destroy the weak handle) on a fresh block. -/
theorem C2_witness :
    1 + countIncS [CBOp.incW, CBOp.decS, CBOp.decW] < size_t_mod
    ∧ (destroyCount (cbRun [CBOp.incW, CBOp.decS, CBOp.decW]
          (some (ControlBlock.construct 0))).2 ≤ 1
       ∧ ((cbRun [CBOp.incW, CBOp.decS, CBOp.decW]
            (some (ControlBlock.construct 0))).1 = none →
          destroyCount (cbRun [CBOp.incW, CBOp.decS, CBOp.decW]
            (some (ControlBlock.construct 0))).2 = 1
          ∧ deleteCount (cbRun [CBOp.incW, CBOp.decS, CBOp.decW]
              (some (ControlBlock.construct 0))).2 = 1)
       ∧ (∀ s2 : ControlBlock,
            (cbRun [CBOp.incW, CBOp.decS, CBOp.decW]
              (some (ControlBlock.construct 0))).1 = some s2 →
            deleteCount (cbRun [CBOp.incW, CBOp.decS, CBOp.decW]
              (some (ControlBlock.construct 0))).2 = 0)
       ∧ (∀ (op : CBOp) (s1 : ControlBlock),
            (s1.objectPtr = true → 1 ≤ s1.strongRefs) →
            (∀ pth : DestroyPath,
                Event.destroyPayload pth ∈ (cbStep op s1).2 →
                op = CBOp.decS ∧ s1.strongRefs = 1 ∧ s1.objectPtr = true)
            ∧ (Event.deleteCB ∈ (cbStep op s1).2 →
                (op = CBOp.decS ∧ s1.strongRefs = 1 ∧ s1.weakRefs = 0)
                ∨ (op = CBOp.decW ∧ s1.weakRefs = 1 ∧ s1.strongRefs = 0)))) :=
  ⟨by decide, C2_destruction_protocol 0 [CBOp.incW, CBOp.decS, CBOp.decW]
    (by decide)⟩

/-- C9 witness: create one weak handle from the live strong handle, then
destroy it. -/
theorem C9_witness :
    ((ControlBlock.construct 0).objectPtr = true →
        1 ≤ (ControlBlock.construct 0).strongRefs)
    ∧ ((∀ pth : DestroyPath,
          Event.destroyPayload pth
            ∉ (weakOpRun [WeakOp.fromStrong, WeakOp.destroyW]
                (some (ControlBlock.construct 0))).2)
       ∧ (∀ s2 : ControlBlock,
            (weakOpRun [WeakOp.fromStrong, WeakOp.destroyW]
              (some (ControlBlock.construct 0))).1 = some s2 →
            s2.strongRefs = (ControlBlock.construct 0).strongRefs
            ∧ s2.objectPtr = (ControlBlock.construct 0).objectPtr)
       ∧ ((weakOpRun [WeakOp.fromStrong, WeakOp.destroyW]
            (some (ControlBlock.construct 0))).1 = none →
          (ControlBlock.construct 0).strongRefs = 0)) :=
  ⟨by decide,
   C9_weak_ops_frame [WeakOp.fromStrong, WeakOp.destroyW]
     (ControlBlock.construct 0) (by decide)⟩

end MexMemory
